import Mathlib

/-!
Verification of the log-statistics extraction pipeline of
`render_profile_viewer` (file `render_profile_viewer/mainwindow.py`).

The Python source is shallowly embedded: strings are `List Char`,
Python floats are modelled as exact rationals `ℚ`, Python `dict` is an
insertion-ordered association list, and Python exceptions
(`IndexError`, `ValueError`, `TypeError`) are modelled with
`Except Unit`.
-/

set_option autoImplicit false

abbrev Str := List Char

/-- Whitespace characters recognised by Python's `str.split()` /
`float()` stripping (the subset that can occur in log lines). -/
def isWS (c : Char) : Bool :=
  c = ' ' || c = '\t' || c = '\n' || c = '\r'

/-- Python `s.split(sep)` for a one-character separator: splits at every
occurrence and keeps empty fields. -/
def splitChar (c : Char) : Str → List Str
  | [] => [[]]
  | x :: xs =>
    if x = c then [] :: splitChar c xs
    else
      match splitChar c xs with
      | t :: ts => (x :: t) :: ts
      | [] => [[x]]

/-- Helper for `splitWS`: split at every whitespace character, keeping
empty fields. -/
def splitAtWS : Str → List Str
  | [] => [[]]
  | x :: xs =>
    if isWS x then [] :: splitAtWS xs
    else
      match splitAtWS xs with
      | t :: ts => (x :: t) :: ts
      | [] => [[x]]

/-- Python `s.split()` with no argument: split on whitespace runs and
drop empty fields. -/
def splitWS (s : Str) : List Str :=
  (splitAtWS s).filter (fun t => !t.isEmpty)

/-- Python negative indexing `l[-k]` (for `k ≥ 1`): `none` models the
`IndexError` raised when the list is too short. -/
def negIdx {α : Type} (l : List α) (k : Nat) : Option α :=
  if k ≤ l.length then l.get? (l.length - k) else none

/-- Python `s.replace(c, '')`: remove every occurrence of a character. -/
def removeChar (c : Char) (s : Str) : Str :=
  s.filter (fun a => a ≠ c)

/-- Strip leading and trailing whitespace (Python `float()` tolerates
surrounding whitespace in its argument). -/
def trimWS (s : Str) : Str :=
  ((s.dropWhile isWS).reverse.dropWhile isWS).reverse

/-- Numeric value of a digit string. -/
def digitsToNat (s : Str) : Nat :=
  s.foldl (fun n c => n * 10 + (c.toNat - '0'.toNat)) 0

/-- Python `float(s)` on the plain decimal literals that occur in render
logs (`[+-]?digits[.digits]?` or `[+-]?.digits`, with surrounding
whitespace allowed); `none` models the `ValueError` raised on any other
input. Exact rationals stand in for IEEE doubles; the value of `a.b`
is `(a*10^|b| + b) / 10^|b|`, written with `mkRat`. -/
def pyFloat (s : Str) : Option ℚ :=
  let t := trimWS s
  match t with
  | [] => none
  | c :: rest =>
    let neg : Bool := c = '-'
    let body : Str := if c = '-' || c = '+' then rest else t
    let signed : ℚ → ℚ := fun q => if neg then -q else q
    match splitChar '.' body with
    | [d] =>
      if !d.isEmpty && d.all Char.isDigit then some (signed (digitsToNat d))
      else none
    | [a, b] =>
      if !(a.isEmpty && b.isEmpty) && a.all Char.isDigit && b.all Char.isDigit then
        some (signed (mkRat (digitsToNat a * 10 ^ b.length + digitsToNat b) (10 ^ b.length)))
      else none
    | _ => none

/-- `get_seconds_from_time` (mainwindow.py:57-61): take the last three
colon-separated fields, parse each as a float, return
`seconds + minutes*60 + hours*3600`.  `Except Unit` models the
`IndexError`/`ValueError` raised on malformed input. -/
def get_seconds_from_time (time_string : Str) : Except Unit ℚ :=
  match negIdx (splitChar ':' time_string) 3, negIdx (splitChar ':' time_string) 2,
      negIdx (splitChar ':' time_string) 1 with
  | some hs, some ms, some ss =>
    match pyFloat hs, pyFloat ms, pyFloat ss with
    | some hours, some minutes, some seconds =>
      .ok (seconds + minutes * 60 + hours * 3600)
    | _, _, _ => .error ()
  | _, _, _ => .error ()

/-- `get_gigabytes_from_size` (mainwindow.py:64-70): convert a
(value, unit) pair to gigabytes.  The inner `Option` models Python's
implicit `None` return when the unit is not `GB`/`MB`/`KB`; the outer
`Except` models the `ValueError` from `float()`. -/
def get_gigabytes_from_size (size_string size_unit : Str) : Except Unit (Option ℚ) :=
  if size_unit = "GB".data then
    match pyFloat size_string with
    | some q => .ok (some q)
    | none => .error ()
  else if size_unit = "MB".data then
    match pyFloat size_string with
    | some q => .ok (some (q / 1024))
    | none => .error ()
  else if size_unit = "KB".data then
    match pyFloat size_string with
    | some q => .ok (some (q / 1024 / 1024))
    | none => .error ()
  else .ok none

/-- A Python dict value as stored in the `stats` dict of
`parse_log_file`: floats, strings, booleans, and `None` (which
`get_gigabytes_from_size` can return for unrecognized units). -/
inductive Value : Type
  | vnum (q : ℚ)
  | vstr (s : Str)
  | vbool (b : Bool)
  | vnone
  deriving DecidableEq

open Value

/-- `get_gigabytes_from_size` result as stored into the dict (a float
or Python `None`). -/
def gbValue (a b : Str) : Except Unit Value :=
  match get_gigabytes_from_size a b with
  | .ok (some q) => .ok (vnum q)
  | .ok none => .ok vnone
  | .error e => .error e

/-- Python `dict` keyed by strings, modelled as an insertion-ordered
association list without duplicate keys. -/
abbrev Stats := List (Str × Value)

/-- `d[k] = v`: replace in place if the key exists, else append. -/
def dset (d : Stats) (k : Str) (v : Value) : Stats :=
  match d with
  | [] => [(k, v)]
  | (k', v') :: rest => if k' = k then (k, v) :: rest else (k', v') :: dset rest k v

/-- Dict lookup. -/
def dget (d : Stats) (k : Str) : Option Value :=
  match d with
  | [] => none
  | (k', v') :: rest => if k' = k then some v' else dget rest k

/-- Python `k in d`. -/
def dmem (d : Stats) (k : Str) : Bool :=
  (dget d k).isSome

/-- Python substring test `pat in s`. -/
def containsSub (s pat : Str) : Bool :=
  pat.isPrefixOf s ||
    match s with
    | [] => false
    | _ :: rest => containsSub rest pat

/-- Python `s.endswith(suffix)`. -/
def endsWithB (s suffix : Str) : Bool :=
  suffix.reverse.isPrefixOf s.reverse

/-- Anchored literal prefix of the fallback regex
`"Executing a (.*) render since execution mode was set to ([^.]*)."`. -/
def lit1 : Str := "Executing a ".data

/-- Middle literal of the fallback regex. -/
def lit2 : Str := " render since execution mode was set to ".data

/-- Largest index of a character other than `'\n'` (used for the
backtracking of a final regex `.`, which cannot match a newline). -/
def lastNonNL : Str → Option Nat
  | [] => none
  | c :: cs =>
    match lastNonNL cs with
    | some i => some (i + 1)
    | none => if c ≠ '\n' then some 0 else none

/-- Match of the regex tail `([^.]*).` against `T` under Python
semantics: `[^.]*` greedily takes the longest dot-free prefix, then `.`
must match one character that is not a newline, backtracking if needed;
returns the text captured by `([^.]*)`. -/
def tailMatch (T : Str) : Option Str :=
  let B0 := T.takeWhile (fun c => c ≠ '.')
  if B0.length < T.length then some B0
  else
    match lastNonNL T with
    | some i => some (T.take i)
    | none => none

/-- One candidate split for the greedy `(.*)` of the fallback regex: at
position `i` of the text after `lit1`, `(.*)` (which cannot cross a
newline) would capture `R.take i`; the split is viable when `lit2`
follows and the regex tail matches the remainder. -/
def checkSplit (R : Str) (i : Nat) : Option Str :=
  if (R.take i).all (fun c => c ≠ '\n') && lit2.isPrefixOf (R.drop i) then
    tailMatch (R.drop (i + lit2.length))
  else none

/-- Greedy search for the `(.*)` split: Python tries the longest
capture first and backtracks downward. -/
def findSplitAux (R : Str) : Nat → Option (Nat × Str)
  | 0 =>
    match checkSplit R 0 with
    | some g2 => some (0, g2)
    | none => none
  | i + 1 =>
    match checkSplit R (i + 1) with
    | some g2 => some (i + 1, g2)
    | none => findSplitAux R i

/-- `fallback_re.match(line)` (mainwindow.py:1956,1967): anchored match
of `"Executing a (.*) render since execution mode was set to ([^.]*)."`
returning the two captured groups. -/
def fallbackMatch (line : Str) : Option (Str × Str) :=
  if lit1.isPrefixOf line then
    match findSplitAux (line.drop lit1.length) (line.drop lit1.length).length with
    | some (i, g2) => some ((line.drop lit1.length).take i, g2)
    | none => none
  else none

/-- The five directional mode pairs recognized by the fallback check
(mainwindow.py:1970-1974). -/
def qualifies (a b : Str) : Bool :=
  (a = "scalar".data && b = "xpu".data) ||
  (a = "vector".data && b = "xpu".data) ||
  (a = "scalar".data && b = "vector".data) ||
  (a = "vector".data && b = "auto".data) ||
  (a = "scalar".data && b = "auto".data)

/-- The accumulation loop over `line.split(' ')` building `stat_name`
(mainwindow.py:1990-1999): after a `'|'` token, non-empty tokens are
appended (each followed by one space) until an empty token turns the
flag off. -/
def statNameLoop : Bool → Str → List Str → Str
  | _, acc, [] => acc
  | flag, acc, t :: ts =>
    let acc' := if flag && !t.isEmpty then acc ++ t ++ [' '] else acc
    let flag' := if flag && t.isEmpty then false else flag
    let flag'' := if t = ['|'] then true else flag'
    statNameLoop flag'' acc' ts

/-- The stat name computed by the source for an MCRT breakdown row:
run the flag loop over `line.split(' ')`, then drop the trailing
space (`stat_name[0:-1]`, mainwindow.py:2000). -/
def codeStatName (line : Str) : Str :=
  (statNameLoop false [] (splitChar ' ' line)).dropLast

/-- `memory_stats` (mainwindow.py:139-141). -/
def memory_stats : List Str :=
  ["Geometry memory".data, "BVH memory".data, "MCRT memory".data]

/-- `render_prep_stats` (mainwindow.py:143-149). -/
def render_prep_stats : List Str :=
  ["Checkout license".data, "Loading scene".data, "Initialize renderer".data,
   "Generating procedurals".data, "Tessellation".data, "Building BVH".data,
   "Building GPU BVH".data]

/-- The local state of `parse_log_file`'s line loop
(mainwindow.py:1957-1964). -/
structure ParseState : Type where
  in_breakdown : Bool
  in_render_prep : Bool
  in_render_prep_memory : Bool
  found_wrote_line : Bool
  found_breakdown : Bool
  stats : Stats
  deriving DecidableEq

/-- Initial loop state: all flags false, `stats` holding
`fallback=False` and `crash=False` (mainwindow.py:1957-1964). -/
def initState : ParseState :=
  { in_breakdown := false, in_render_prep := false, in_render_prep_memory := false,
    found_wrote_line := false, found_breakdown := false,
    stats := dset (dset [] "fallback".data (vbool false)) "crash".data (vbool false) }

/-- The per-line fallback check (mainwindow.py:1967-1976): on a regex
match with a qualifying pair, set `fallback=True` and
`fallback_mode=<group 1>`.  (The source's `len(match.groups()) == 2`
test is always true, the pattern having exactly two groups.) -/
def applyFallback (st : ParseState) (line : Str) : ParseState :=
  match fallbackMatch line with
  | some (g1, g2) =>
    if qualifies g1 g2 then
      { st with stats := dset (dset st.stats "fallback".data (vbool true))
                              "fallback_mode".data (vstr g1) }
    else st
  | none => st

/-- The `Totals` terminator of the MCRT breakdown block
(mainwindow.py:1978-1986).  A `None` minus a float in the subtraction
would raise `TypeError`, modelled by `.error`. -/
def handleTotals (st : ParseState) (line : Str) : Except Unit ParseState :=
  match negIdx (splitWS line) 2 with
  | none => .error ()
  | some t0 =>
    match pyFloat (removeChar ',' t0) with
    | none => .error ()
    | some tm =>
      let stats1 := dset st.stats "total_mcrt_time".data (vnum tm)
      match (splitWS line).get? 1, (splitWS line).get? 2 with
      | some a, some b =>
        (match gbValue a b with
        | .error e => .error e
        | .ok v =>
          let stats2 := dset stats1 "MCRT memory".data v
          if dmem stats2 "total_render_prep_memory".data then
            match dget stats2 "MCRT memory".data,
                dget stats2 "total_render_prep_memory".data with
            | some (vnum x), some (vnum y) =>
              .ok { st with stats := dset stats2 "MCRT memory".data (vnum (x - y)),
                            in_breakdown := false }
            | _, _ => .error ()
          else .ok { st with stats := stats2, in_breakdown := false })
      | _, _ => .error ()

/-- An MCRT breakdown stat row (mainwindow.py:1989-2003): tokenized
stat name, value from `tokens[-2]` with commas stripped. -/
def handleStatRow (st : ParseState) (line : Str) : Except Unit ParseState :=
  match negIdx (splitChar ' ' line) 2 with
  | none => .error ()
  | some t =>
    match pyFloat (removeChar ',' t) with
    | none => .error ()
    | some q => .ok { st with stats := dset st.stats (codeStatName line) (vnum q) }

/-- The `Total render prep` terminator (mainwindow.py:2008-2010). -/
def handlePrepTotal (st : ParseState) (line : Str) : Except Unit ParseState :=
  match negIdx (splitWS line) 1 with
  | none => .error ()
  | some t =>
    match get_seconds_from_time t with
    | .error e => .error e
    | .ok secs =>
      .ok { st with stats := dset st.stats "total_render_prep_time".data (vnum secs),
                    in_render_prep := false }

/-- Conversion applied to a matching render-prep stat line
(mainwindow.py:2014): seconds from the trailing whitespace token. -/
def prepConvert (line : Str) : Except Unit Value :=
  match negIdx (splitWS line) 1 with
  | none => .error ()
  | some t =>
    match get_seconds_from_time t with
    | .ok s => .ok (vnum s)
    | .error e => .error e

/-- Conversion applied to a matching memory stat line
(mainwindow.py:2024): gigabytes from the last two tokens. -/
def memConvert (line : Str) : Except Unit Value :=
  match negIdx (splitWS line) 2, negIdx (splitWS line) 1 with
  | some a, some b => gbValue a b
  | _, _ => .error ()

/-- `for stat in stat_list: if stat in line: stats[stat] = conv(line)`
(mainwindow.py:2012-2014 and 2022-2024). -/
def scanStatsLoop (conv : Str → Except Unit Value) (stats : Stats) (line : Str) :
    List Str → Except Unit Stats
  | [] => .ok stats
  | s :: rest =>
    if containsSub line s then
      match conv line with
      | .error e => .error e
      | .ok v => scanStatsLoop conv (dset stats s v) line rest
    else scanStatsLoop conv stats line rest

/-- The `Total memory` terminator of the memory summary block
(mainwindow.py:2018-2020). -/
def handleMemTotal (st : ParseState) (line : Str) : Except Unit ParseState :=
  match negIdx (splitWS line) 2, negIdx (splitWS line) 1 with
  | some a, some b =>
    (match gbValue a b with
    | .error e => .error e
    | .ok v =>
      .ok { st with stats := dset st.stats "total_render_prep_memory".data v,
                    in_render_prep_memory := false })
  | _, _ => .error ()

/-- The pixel-samples line (mainwindow.py:2027-2032). -/
def handlePixel (st : ParseState) (line : Str) : Except Unit ParseState :=
  match (splitChar '=' line).get? 1 with
  | none => .error ()
  | some ps =>
    match pyFloat (removeChar '\n' (removeChar ' ' (removeChar ',' ps))) with
    | none => .error ()
    | some q =>
      .ok { st with stats := dset st.stats "pixel_samples".data (vnum (q / 1000000)) }

/-- The host-name line (mainwindow.py:2033-2037). -/
def handleHost (st : ParseState) (line : Str) : Except Unit ParseState :=
  match (splitChar '=' line).get? 1 with
  | none => .error ()
  | some hn =>
    .ok { st with stats := dset st.stats "host_name".data
                                (vstr (removeChar '\n' (removeChar ' ' hn))) }

/-- The `Wrote` line (mainwindow.py:2038-2043): capture the second
whitespace token as `output_image` the first time it ends with
`Image.exr`. -/
def handleWrote (st : ParseState) (line : Str) : Except Unit ParseState :=
  if st.found_wrote_line then .ok st
  else
    match (splitWS line).get? 1 with
    | none => .error ()
    | some tok =>
      if endsWithB tok "Image.exr".data then
        .ok { st with stats := dset st.stats "output_image".data (vstr tok),
                      found_wrote_line := true }
      else .ok st

/-- The `if in_breakdown: ... elif ... : ...` chain of
`parse_log_file` (mainwindow.py:1977-2045). -/
def dispatch (st : ParseState) (line : Str) : Except Unit ParseState :=
  if st.in_breakdown then
    if containsSub line "Totals".data then handleTotals st line
    else if containsSub line "----".data || containsSub line "Total".data ||
        containsSub line "Avg Time per".data then .ok st
    else handleStatRow st line
  else if containsSub line "- MCRT Time Breakdown -".data then
    .ok { st with in_breakdown := true, found_breakdown := true }
  else if st.in_render_prep then
    if containsSub line "Total render prep".data then handlePrepTotal st line
    else
      match scanStatsLoop prepConvert st.stats line render_prep_stats with
      | .ok stats => .ok { st with stats := stats }
      | .error e => .error e
  else if containsSub line "- Render Prep Stats -".data then
    .ok { st with in_render_prep := true }
  else if st.in_render_prep_memory then
    if containsSub line "Total memory".data then handleMemTotal st line
    else
      match scanStatsLoop memConvert st.stats line memory_stats with
      | .ok stats => .ok { st with stats := stats }
      | .error e => .error e
  else if containsSub line "- Memory Summary -".data then
    .ok { st with in_render_prep_memory := true }
  else if containsSub line "Pixel samples".data &&
      !containsSub line "Pixel samples sqrt".data then handlePixel st line
  else if containsSub line "Host name".data then handleHost st line
  else if containsSub line "Wrote".data then handleWrote st line
  else if containsSub line "-- Callstack:".data then
    .ok { st with stats := dset st.stats "crash".data (vbool true) }
  else .ok st

/-- One iteration of the `for line in f` loop: the stateless fallback
check (mainwindow.py:1967-1976) followed by the dispatch chain. -/
def processLine (st : ParseState) (line : Str) : Except Unit ParseState :=
  dispatch (applyFallback st line) line

/-- The whole line loop. -/
def runLines : ParseState → List Str → Except Unit ParseState
  | st, [] => .ok st
  | st, l :: ls =>
    match processLine st l with
    | .ok st' => runLines st' ls
    | .error e => .error e

/-- `parse_log_file` (mainwindow.py:1955-2050) over the file's lines:
`none` when the MCRT breakdown header was never found, otherwise the
accumulated stats dict. -/
def parse_log_file (lines : List Str) : Except Unit (Option Stats) :=
  match runLines initState lines with
  | .ok st => if st.found_breakdown then .ok (some st.stats) else .ok none
  | .error e => .error e

instance {ε α : Type} [DecidableEq ε] [DecidableEq α] : DecidableEq (Except ε α) := fun a b =>
  match a, b with
  | .ok x, .ok y =>
    if h : x = y then .isTrue (by rw [h]) else .isFalse (by simp [h])
  | .error x, .error y =>
    if h : x = y then .isTrue (by rw [h]) else .isFalse (by simp [h])
  | .ok _, .error _ => .isFalse (by simp)
  | .error _, .ok _ => .isFalse (by simp)

/-- Claim C6: `get_seconds_from_time` uses only the last three
colon-separated fields `H`, `MM`, `SS` of its input (any preceding
fields are ignored), parses each as a float, and returns
`H*3600 + MM*60 + SS`. -/
theorem get_seconds_last_three (ts a b c : Str) (h m s : ℚ)
    (ha : negIdx (splitChar ':' ts) 3 = some a)
    (hb : negIdx (splitChar ':' ts) 2 = some b)
    (hc : negIdx (splitChar ':' ts) 1 = some c)
    (hfa : pyFloat a = some h) (hfb : pyFloat b = some m)
    (hfc : pyFloat c = some s) :
    get_seconds_from_time ts = .ok (h * 3600 + m * 60 + s) := by
  unfold get_seconds_from_time
  rw [ha, hb, hc]
  dsimp only
  rw [hfa, hfb, hfc]
  dsimp only
  congr 1
  ring

/-- Witness for C6: `get_seconds_from_time "01:02:03" = 3723`, with a
leading ignored field in a second instantiation shape. -/
theorem get_seconds_last_three_witness :
    get_seconds_from_time "01:02:03".data = .ok (1 * 3600 + 2 * 60 + 3) :=
  get_seconds_last_three "01:02:03".data "01".data "02".data "03".data 1 2 3
    (by decide) (by decide) (by decide) (by decide) (by decide) (by decide)

/-- Claim C7: for every numeric string `v`, converting with unit `GB`
returns `float(v)`, with `MB` returns `float(v)/1024`, with `KB`
returns `float(v)/1024/1024`, and any other unit yields Python's
implicit `None`. -/
theorem gigabytes_conversion (v : Str) (q : ℚ) (hv : pyFloat v = some q) :
    get_gigabytes_from_size v "GB".data = .ok (some q) ∧
    get_gigabytes_from_size v "MB".data = .ok (some (q / 1024)) ∧
    get_gigabytes_from_size v "KB".data = .ok (some (q / 1024 / 1024)) ∧
    ∀ u : Str, u ≠ "GB".data → u ≠ "MB".data → u ≠ "KB".data →
      get_gigabytes_from_size v u = .ok none := by
  refine ⟨?_, ?_, ?_, ?_⟩
  · unfold get_gigabytes_from_size
    rw [if_pos rfl, hv]
  · unfold get_gigabytes_from_size
    rw [if_neg (by decide), if_pos rfl, hv]
  · unfold get_gigabytes_from_size
    rw [if_neg (by decide), if_neg (by decide), if_pos rfl, hv]
  · intro u hg hm hk
    unfold get_gigabytes_from_size
    rw [if_neg hg, if_neg hm, if_neg hk]

/-- Witness for C7: `("2048", "MB") → 2.0`, and an unrecognized unit
returns the implicit-`None` sentinel. -/
theorem gigabytes_conversion_witness :
    get_gigabytes_from_size "2048".data "MB".data = .ok (some (2048 / 1024)) ∧
    get_gigabytes_from_size "2048".data "TB".data = .ok none := by
  have h := gigabytes_conversion "2048".data 2048 (by decide)
  exact ⟨h.2.1, h.2.2.2 "TB".data (by decide) (by decide) (by decide)⟩

/-! ### Dictionary lemmas -/

theorem dget_dset_self (d : Stats) (k : Str) (v : Value) :
    dget (dset d k v) k = some v := by
  induction d with
  | nil => simp [dset, dget]
  | cons p rest ih =>
    obtain ⟨k', v'⟩ := p
    by_cases h : k' = k
    · simp [dset, dget, h]
    · simp [dset, dget, h, ih]

theorem dget_dset_ne (d : Stats) (k k' : Str) (v : Value) (h : k' ≠ k) :
    dget (dset d k v) k' = dget d k' := by
  induction d with
  | nil =>
    show dget [(k, v)] k' = none
    simp only [dget]
    rw [if_neg (Ne.symm h)]
  | cons p rest ih =>
    obtain ⟨k0, v0⟩ := p
    show dget (if k0 = k then (k, v) :: rest else (k0, v0) :: dset rest k v) k' = _
    by_cases h0 : k0 = k
    · rw [if_pos h0]
      have hk0 : ¬ k0 = k' := by
        rw [h0]
        exact Ne.symm h
      show (if k = k' then some v else dget rest k') =
        (if k0 = k' then some v0 else dget rest k')
      rw [if_neg (Ne.symm h), if_neg hk0]
    · rw [if_neg h0]
      show (if k0 = k' then some v0 else dget (dset rest k v) k') =
        (if k0 = k' then some v0 else dget rest k')
      by_cases h1 : k0 = k'
      · rw [if_pos h1, if_pos h1]
      · rw [if_neg h1, if_neg h1, ih]

theorem isSome_dget_dset (d : Stats) (k k' : Str) (v : Value)
    (h : (dget d k').isSome) : (dget (dset d k v) k').isSome := by
  by_cases hk : k' = k
  · subst hk
    rw [dget_dset_self]
    simp
  · rwa [dget_dset_ne _ _ _ _ hk]

/-- `Preserves d d' K`: `d'` extends `d`, every key present in `d` is
still present, and keys outside `K` keep their values. -/
def Preserves (d d' : Stats) (K : List Str) : Prop :=
  (∀ k, (dget d k).isSome → (dget d' k).isSome) ∧
  (∀ k, (∀ k0 ∈ K, k ≠ k0) → dget d' k = dget d k)

theorem preserves_refl (d : Stats) (K : List Str) : Preserves d d K :=
  ⟨fun _ h => h, fun _ _ => rfl⟩

theorem preserves_dset (d : Stats) (k : Str) (v : Value) (K : List Str)
    (hk : k ∈ K) : Preserves d (dset d k v) K :=
  ⟨fun k' h => isSome_dget_dset d k k' v h,
   fun k' h' => dget_dset_ne d k k' v (h' k hk)⟩

theorem preserves_trans {d d' d'' : Stats} {K : List Str}
    (h1 : Preserves d d' K) (h2 : Preserves d' d'' K) : Preserves d d'' K :=
  ⟨fun k h => h2.1 k (h1.1 k h), fun k h => (h2.2 k h).trans (h1.2 k h)⟩

theorem preserves_dset_right {d d' : Stats} {K : List Str} (k : Str) (v : Value)
    (hk : k ∈ K) (h : Preserves d d' K) : Preserves d (dset d' k v) K :=
  preserves_trans h (preserves_dset d' k v K hk)

/-! ### Shape lemmas for the per-line handlers -/

theorem applyFallback_flags (st : ParseState) (line : Str) :
    (applyFallback st line).in_breakdown = st.in_breakdown ∧
    (applyFallback st line).in_render_prep = st.in_render_prep ∧
    (applyFallback st line).in_render_prep_memory = st.in_render_prep_memory ∧
    (applyFallback st line).found_wrote_line = st.found_wrote_line ∧
    (applyFallback st line).found_breakdown = st.found_breakdown := by
  unfold applyFallback
  split
  · split <;> simp
  · simp

theorem applyFallback_preserves (st : ParseState) (line : Str) :
    Preserves st.stats (applyFallback st line).stats
      ["fallback".data, "fallback_mode".data] := by
  unfold applyFallback
  split
  · split
    · exact preserves_dset_right _ _ (by simp)
        (preserves_dset _ _ _ _ (by simp))
    · exact preserves_refl _ _
  · exact preserves_refl _ _

/-- Whether the line matches the fallback regex with one of the five
qualifying pairs (the condition under which mainwindow.py:1975-1976
run). -/
def fallbackQualMatch (line : Str) : Bool :=
  match fallbackMatch line with
  | some (g1, g2) => qualifies g1 g2
  | none => false

theorem applyFallback_of_not_qual {st : ParseState} {line : Str}
    (h : fallbackQualMatch line = false) : applyFallback st line = st := by
  unfold applyFallback
  unfold fallbackQualMatch at h
  split
  · rename_i g1 g2 heq
    rw [heq] at h
    have hq : qualifies g1 g2 = false := h
    rw [hq]
    simp
  · rfl

/-- Flags of a `ParseState`, for stating that a handler only changes
some of them. -/
def flagsEq (st' st : ParseState) : Prop :=
  st'.in_breakdown = st.in_breakdown ∧
  st'.in_render_prep = st.in_render_prep ∧
  st'.in_render_prep_memory = st.in_render_prep_memory ∧
  st'.found_wrote_line = st.found_wrote_line ∧
  st'.found_breakdown = st.found_breakdown

theorem handleTotals_ok {st st' : ParseState} {line : Str}
    (h : handleTotals st line = .ok st') :
    st'.in_breakdown = false ∧ st'.in_render_prep = st.in_render_prep ∧
    st'.in_render_prep_memory = st.in_render_prep_memory ∧
    st'.found_wrote_line = st.found_wrote_line ∧
    st'.found_breakdown = st.found_breakdown ∧
    Preserves st.stats st'.stats ["total_mcrt_time".data, "MCRT memory".data] := by
  simp only [handleTotals] at h
  repeat' split at h
  all_goals try exact (Except.noConfusion h)
  all_goals (injection h with h; subst h)
  all_goals refine ⟨rfl, rfl, rfl, rfl, rfl, ?_⟩
  all_goals first
    | exact preserves_dset_right _ _ (by decide)
        (preserves_dset_right _ _ (by decide)
          (preserves_dset _ _ _ _ (by decide)))
    | exact preserves_dset_right _ _ (by decide)
        (preserves_dset _ _ _ _ (by decide))

theorem handleStatRow_ok {st st' : ParseState} {line : Str}
    (h : handleStatRow st line = .ok st') :
    flagsEq st' st ∧ Preserves st.stats st'.stats [codeStatName line] := by
  simp only [handleStatRow] at h
  repeat' split at h
  all_goals try exact (Except.noConfusion h)
  all_goals (injection h with h; subst h)
  exact ⟨⟨rfl, rfl, rfl, rfl, rfl⟩, preserves_dset _ _ _ _ (by simp)⟩

theorem handlePrepTotal_ok {st st' : ParseState} {line : Str}
    (h : handlePrepTotal st line = .ok st') :
    st'.in_breakdown = st.in_breakdown ∧ st'.in_render_prep = false ∧
    st'.in_render_prep_memory = st.in_render_prep_memory ∧
    st'.found_wrote_line = st.found_wrote_line ∧
    st'.found_breakdown = st.found_breakdown ∧
    Preserves st.stats st'.stats ["total_render_prep_time".data] := by
  simp only [handlePrepTotal] at h
  repeat' split at h
  all_goals try exact (Except.noConfusion h)
  all_goals (injection h with h; subst h)
  exact ⟨rfl, rfl, rfl, rfl, rfl, preserves_dset _ _ _ _ (by simp)⟩

theorem handleMemTotal_ok {st st' : ParseState} {line : Str}
    (h : handleMemTotal st line = .ok st') :
    st'.in_breakdown = st.in_breakdown ∧ st'.in_render_prep = st.in_render_prep ∧
    st'.in_render_prep_memory = false ∧
    st'.found_wrote_line = st.found_wrote_line ∧
    st'.found_breakdown = st.found_breakdown ∧
    Preserves st.stats st'.stats ["total_render_prep_memory".data] := by
  simp only [handleMemTotal] at h
  repeat' split at h
  all_goals try exact (Except.noConfusion h)
  all_goals (injection h with h; subst h)
  exact ⟨rfl, rfl, rfl, rfl, rfl, preserves_dset _ _ _ _ (by simp)⟩

theorem handlePixel_ok {st st' : ParseState} {line : Str}
    (h : handlePixel st line = .ok st') :
    flagsEq st' st ∧ Preserves st.stats st'.stats ["pixel_samples".data] := by
  simp only [handlePixel] at h
  repeat' split at h
  all_goals try exact (Except.noConfusion h)
  all_goals (injection h with h; subst h)
  exact ⟨⟨rfl, rfl, rfl, rfl, rfl⟩, preserves_dset _ _ _ _ (by simp)⟩

theorem handleHost_ok {st st' : ParseState} {line : Str}
    (h : handleHost st line = .ok st') :
    flagsEq st' st ∧ Preserves st.stats st'.stats ["host_name".data] := by
  simp only [handleHost] at h
  repeat' split at h
  all_goals try exact (Except.noConfusion h)
  all_goals (injection h with h; subst h)
  exact ⟨⟨rfl, rfl, rfl, rfl, rfl⟩, preserves_dset _ _ _ _ (by simp)⟩

theorem handleWrote_ok {st st' : ParseState} {line : Str}
    (h : handleWrote st line = .ok st') :
    st'.in_breakdown = st.in_breakdown ∧ st'.in_render_prep = st.in_render_prep ∧
    st'.in_render_prep_memory = st.in_render_prep_memory ∧
    st'.found_breakdown = st.found_breakdown ∧
    Preserves st.stats st'.stats ["output_image".data] := by
  simp only [handleWrote] at h
  repeat' split at h
  all_goals try exact (Except.noConfusion h)
  all_goals (injection h with h; subst h)
  all_goals first
    | exact ⟨rfl, rfl, rfl, rfl, preserves_refl _ _⟩
    | exact ⟨rfl, rfl, rfl, rfl, preserves_dset _ _ _ _ (by simp)⟩

theorem scanStatsLoop_ok {conv : Str → Except Unit Value} {line : Str} :
    ∀ (L : List Str) (stats stats' : Stats),
      scanStatsLoop conv stats line L = .ok stats' →
      ∀ K : List Str, (∀ s ∈ L, s ∈ K) → Preserves stats stats' K := by
  intro L
  induction L with
  | nil =>
    intro stats stats' h K _
    simp only [scanStatsLoop] at h
    injection h with h
    subst h
    exact preserves_refl _ _
  | cons s rest ih =>
    intro stats stats' h K hK
    simp only [scanStatsLoop] at h
    split at h
    · split at h
      · exact (Except.noConfusion h)
      · exact preserves_trans
          (preserves_dset _ _ _ _ (hK s (by simp)))
          (ih _ _ h K (fun t ht => hK t (by simp [ht])))
    · exact ih _ _ h K (fun t ht => hK t (by simp [ht]))

/-- Evolution of the `in_breakdown` flag on one line: while inside the
block only a `Totals` line leaves it; outside, only the section header
enters it. -/
def nextIB (b : Bool) (line : Str) : Bool :=
  if b then !containsSub line "Totals".data
  else containsSub line "- MCRT Time Breakdown -".data

/-- Whether some line of the list triggers the MCRT breakdown header
check, i.e. contains the header text while no breakdown block is
active, starting from `in_breakdown = b`. -/
def breakdownTrigger : Bool → List Str → Bool
  | _, [] => false
  | b, l :: ls =>
    (!b && containsSub l "- MCRT Time Breakdown -".data) || breakdownTrigger (nextIB b l) ls

set_option maxHeartbeats 1600000 in
theorem dispatch_flags {st st' : ParseState} {line : Str}
    (h : dispatch st line = .ok st') :
    st'.in_breakdown = nextIB st.in_breakdown line ∧
    st'.found_breakdown =
      (st.found_breakdown ||
        (!st.in_breakdown && containsSub line "- MCRT Time Breakdown -".data)) := by
  unfold dispatch at h
  split at h
  · split at h
    · rcases handleTotals_ok h with ⟨e1, e2, e3, e4, e5, _⟩
      constructor <;> simp_all [nextIB]
    · split at h
      · injection h with h
        subst h
        constructor <;> simp_all [nextIB]
      · rcases handleStatRow_ok h with ⟨⟨e1, e2, e3, e4, e5⟩, _⟩
        constructor <;> simp_all [nextIB]
  · split at h
    · injection h with h
      subst h
      constructor <;> simp_all [nextIB]
    · split at h
      · split at h
        · rcases handlePrepTotal_ok h with ⟨e1, e2, e3, e4, e5, _⟩
          constructor <;> simp_all [nextIB]
        · split at h
          · injection h with h
            subst h
            constructor <;> simp_all [nextIB]
          · exact (Except.noConfusion h)
      · split at h
        · injection h with h
          subst h
          constructor <;> simp_all [nextIB]
        · split at h
          · split at h
            · rcases handleMemTotal_ok h with ⟨e1, e2, e3, e4, e5, _⟩
              constructor <;> simp_all [nextIB]
            · split at h
              · injection h with h
                subst h
                constructor <;> simp_all [nextIB]
              · exact (Except.noConfusion h)
          · split at h
            · injection h with h
              subst h
              constructor <;> simp_all [nextIB]
            · split at h
              · rcases handlePixel_ok h with ⟨⟨e1, e2, e3, e4, e5⟩, _⟩
                constructor <;> simp_all [nextIB]
              · split at h
                · rcases handleHost_ok h with ⟨⟨e1, e2, e3, e4, e5⟩, _⟩
                  constructor <;> simp_all [nextIB]
                · split at h
                  · rcases handleWrote_ok h with ⟨e1, e2, e3, e4, _⟩
                    constructor <;> simp_all [nextIB]
                  · split at h
                    · injection h with h
                      subst h
                      constructor <;> simp_all [nextIB]
                    · injection h with h
                      subst h
                      constructor <;> simp_all [nextIB]

theorem processLine_flags {st st' : ParseState} {line : Str}
    (h : processLine st line = .ok st') :
    st'.in_breakdown = nextIB st.in_breakdown line ∧
    st'.found_breakdown =
      (st.found_breakdown ||
        (!st.in_breakdown && containsSub line "- MCRT Time Breakdown -".data)) := by
  unfold processLine at h
  have hf := applyFallback_flags st line
  have hd := dispatch_flags h
  rw [hf.1, hf.2.2.2.2] at hd
  exact hd

theorem runLines_found {lines : List Str} : ∀ {st st' : ParseState},
    runLines st lines = .ok st' →
    st'.found_breakdown = (st.found_breakdown || breakdownTrigger st.in_breakdown lines) := by
  induction lines with
  | nil =>
    intro st st' h
    injection h with h
    subst h
    simp [breakdownTrigger]
  | cons l ls ih =>
    intro st st' h
    simp only [runLines] at h
    split at h
    · rename_i st1 heq
      have hp := processLine_flags heq
      have hr := ih h
      rw [hr, hp.2, hp.1, breakdownTrigger, Bool.or_assoc]
    · exact (Except.noConfusion h)

/-- Claim C1: `parse_log_file` returns the no-data result (`None`) if
and only if no line of the log triggered the MCRT breakdown header
check (i.e. contained `'- MCRT Time Breakdown -'` while no breakdown
block was active); otherwise it returns the populated stats record,
regardless of what other sections were parsed.  (`breakdownTrigger
false lines` recomputes exactly that trigger along the scan.) -/
theorem parse_none_iff_no_breakdown_header (lines : List Str) (r : Option Stats)
    (h : parse_log_file lines = .ok r) :
    r = none ↔ breakdownTrigger false lines = false := by
  unfold parse_log_file at h
  split at h
  · rename_i st heq
    have hf : st.found_breakdown = breakdownTrigger false lines := by
      simpa [initState] using runLines_found heq
    split at h
    · injection h with h
      subst h
      rename_i hcond
      rw [hcond] at hf
      simp [← hf]
    · injection h with h
      subst h
      rename_i hcond
      simp only [Bool.not_eq_true] at hcond
      rw [hcond] at hf
      simp [← hf]
  · exact (Except.noConfusion h)

/-- Witness for C1 at a concrete log containing the MCRT breakdown
header: the result is a populated record, matching the trigger. -/
theorem parse_none_iff_no_breakdown_header_witness :
    (some [("fallback".data, vbool false), ("crash".data, vbool false),
           ("total_mcrt_time".data, vnum 2), ("MCRT memory".data, vnum 1)] =
        (none : Option Stats) ↔
      breakdownTrigger false
        ["- MCRT Time Breakdown -\n".data, "Totals 1 GB 2.0 x\n".data] = false) :=
  parse_none_iff_no_breakdown_header
    ["- MCRT Time Breakdown -\n".data, "Totals 1 GB 2.0 x\n".data]
    (some [("fallback".data, vbool false), ("crash".data, vbool false),
           ("total_mcrt_time".data, vnum 2), ("MCRT memory".data, vnum 1)])
    (by decide)

/-- Claim C2: when the MCRT breakdown's `Totals` terminator line is
processed, the resulting `MCRT memory` equals the Totals row's
(value, unit) pair (tokens 1 and 2) converted to gigabytes when no
`total_render_prep_memory` key is present, and equals that converted
value minus the stored `total_render_prep_memory` when the key holds a
number. -/
theorem totals_mcrt_memory (st st' : ParseState) (line : Str) (g : ℚ) (a b : Str)
    (hib : st.in_breakdown = true)
    (htot : containsSub line "Totals".data = true)
    (ha : (splitWS line).get? 1 = some a)
    (hb : (splitWS line).get? 2 = some b)
    (hg : get_gigabytes_from_size a b = .ok (some g))
    (h : dispatch st line = .ok st') :
    (dmem st.stats "total_render_prep_memory".data = false →
      dget st'.stats "MCRT memory".data = some (vnum g)) ∧
    (∀ y : ℚ, dget st.stats "total_render_prep_memory".data = some (vnum y) →
      dget st'.stats "MCRT memory".data = some (vnum (g - y))) := by
  unfold dispatch at h
  rw [hib, htot] at h
  rw [if_pos rfl, if_pos rfl] at h
  simp only [handleTotals] at h
  split at h
  · exact (Except.noConfusion h)
  rename_i t0 ht0
  split at h
  · exact (Except.noConfusion h)
  rename_i tm htm
  rw [ha, hb] at h
  dsimp only at h
  have hgb : gbValue a b = .ok (vnum g) := by
    unfold gbValue
    rw [hg]
  rw [hgb] at h
  dsimp only at h
  have htrpm : dget (dset (dset st.stats "total_mcrt_time".data (vnum tm))
        "MCRT memory".data (vnum g)) "total_render_prep_memory".data =
      dget st.stats "total_render_prep_memory".data := by
    rw [dget_dset_ne _ _ _ _ (by decide), dget_dset_ne _ _ _ _ (by decide)]
  constructor
  · intro hmem
    have hm2 : dmem (dset (dset st.stats "total_mcrt_time".data (vnum tm))
        "MCRT memory".data (vnum g)) "total_render_prep_memory".data = false := by
      unfold dmem at hmem ⊢
      rw [htrpm]
      exact hmem
    rw [hm2] at h
    rw [if_neg (by simp)] at h
    injection h with h
    subst h
    exact dget_dset_self _ _ _
  · intro y hy
    have hm2 : dmem (dset (dset st.stats "total_mcrt_time".data (vnum tm))
        "MCRT memory".data (vnum g)) "total_render_prep_memory".data = true := by
      unfold dmem
      rw [htrpm, hy]
      rfl
    rw [hm2] at h
    rw [if_pos rfl] at h
    rw [htrpm, hy, dget_dset_self] at h
    dsimp only at h
    injection h with h
    subst h
    exact dget_dset_self _ _ _

/-- Witness for C2 on a concrete `Totals` line with a stored
render-prep memory of 1 GB: `MCRT memory = 3 GB - 1 GB = 2`. -/
theorem totals_mcrt_memory_witness :
    get_gigabytes_from_size "3".data "GB".data = .ok (some 3) ∧
    dget [("fallback".data, vbool false), ("crash".data, vbool false),
          ("total_render_prep_memory".data, vnum 1), ("total_mcrt_time".data, vnum 4),
          ("MCRT memory".data, vnum 2)] "MCRT memory".data = some (vnum 2) := by
  refine ⟨by decide, ?_⟩
  have h := (totals_mcrt_memory
    ⟨true, false, false, false, true,
      [("fallback".data, vbool false), ("crash".data, vbool false),
       ("total_render_prep_memory".data, vnum 1)]⟩
    ⟨false, false, false, false, true,
      [("fallback".data, vbool false), ("crash".data, vbool false),
       ("total_render_prep_memory".data, vnum 1), ("total_mcrt_time".data, vnum 4),
       ("MCRT memory".data, vnum 2)]⟩
    "Totals 3 GB 4 x\n".data 3 "3".data "GB".data
    (by decide) (by decide) (by decide) (by decide) (by decide)
    (by with_unfolding_all rfl)).2 1 (by decide)
  rw [show ((3 : ℚ) - 1) = 2 by norm_num] at h
  exact h

/-- Claim C3: for a line matching the fallback regex with groups
`(a, b)`, the check sets `fallback=true` and `fallback_mode=a` exactly
when `(a, b)` is one of the five directional pairs
(scalar,xpu), (vector,xpu), (scalar,vector), (vector,auto),
(scalar,auto) — `qualifies` is that five-way disjunction verbatim —
and leaves the state entirely unchanged for any other pair. -/
theorem fallback_pairs (st : ParseState) (line : Str) (a b : Str)
    (hm : fallbackMatch line = some (a, b)) :
    (qualifies a b = true →
      dget (applyFallback st line).stats "fallback".data = some (vbool true) ∧
      dget (applyFallback st line).stats "fallback_mode".data = some (vstr a)) ∧
    (qualifies a b = false → applyFallback st line = st) := by
  unfold applyFallback
  rw [hm]
  dsimp only
  constructor
  · intro hq
    rw [hq, if_pos rfl]
    constructor
    · rw [dget_dset_ne _ _ _ _ (by decide), dget_dset_self]
    · exact dget_dset_self _ _ _
  · intro hq
    rw [hq, if_neg (by simp)]

/-- Witness for C3: the pair (vector, xpu) qualifies and records the
fallback; the reverse pair (xpu, scalar) matches the regex but leaves
the state unchanged. -/
theorem fallback_pairs_witness :
    dget (applyFallback initState
        "Executing a vector render since execution mode was set to xpu.\n".data).stats
      "fallback".data = some (vbool true) ∧
    dget (applyFallback initState
        "Executing a vector render since execution mode was set to xpu.\n".data).stats
      "fallback_mode".data = some (vstr "vector".data) ∧
    applyFallback initState
      "Executing a xpu render since execution mode was set to scalar.\n".data = initState := by
  have h1 := (fallback_pairs initState
    "Executing a vector render since execution mode was set to xpu.\n".data
    "vector".data "xpu".data (by decide)).1 (by decide)
  have h2 := (fallback_pairs initState
    "Executing a xpu render since execution mode was set to scalar.\n".data
    "xpu".data "scalar".data (by decide)).2 (by decide)
  exact ⟨h1.1, h1.2, h2⟩

/-- Claim C9: for a line that reaches the `Wrote` check (contains
`"Wrote"`, no section block active, no earlier check matched), the
first such line whose second whitespace token ends in `Image.exr`
stores that token as `output_image` and raises `found_wrote_line`;
once `found_wrote_line` is set, every later `Wrote` line leaves the
state unchanged, and a `Wrote` line whose token does not end in
`Image.exr` also changes nothing (and does not block later capture). -/
theorem wrote_first_capture (st : ParseState) (line : Str)
    (h1 : st.in_breakdown = false)
    (h2 : containsSub line "- MCRT Time Breakdown -".data = false)
    (h3 : st.in_render_prep = false)
    (h4 : containsSub line "- Render Prep Stats -".data = false)
    (h5 : st.in_render_prep_memory = false)
    (h6 : containsSub line "- Memory Summary -".data = false)
    (h7 : (containsSub line "Pixel samples".data &&
        !containsSub line "Pixel samples sqrt".data) = false)
    (h8 : containsSub line "Host name".data = false)
    (h9 : containsSub line "Wrote".data = true) :
    (st.found_wrote_line = true → dispatch st line = .ok st) ∧
    (st.found_wrote_line = false → ∀ tok : Str, (splitWS line).get? 1 = some tok →
      (endsWithB tok "Image.exr".data = true →
        dispatch st line =
          .ok { st with stats := dset st.stats "output_image".data (vstr tok),
                        found_wrote_line := true }) ∧
      (endsWithB tok "Image.exr".data = false → dispatch st line = .ok st)) := by
  have hd : dispatch st line = handleWrote st line := by
    unfold dispatch
    rw [h1, h2, h3, h4, h5, h6, h7, h8, h9]
    simp
  rw [hd]
  constructor
  · intro hf
    unfold handleWrote
    rw [hf, if_pos rfl]
  · intro hf tok htok
    unfold handleWrote
    rw [hf]
    simp only [Bool.false_eq_true, if_false]
    rw [htok]
    dsimp only
    constructor
    · intro he
      rw [he, if_pos rfl]
    · intro he
      rw [he, if_neg (by simp)]

/-- Witness for C9: a first qualifying `Wrote` line captures the image
path and raises the flag. -/
theorem wrote_first_capture_witness :
    dispatch initState "Wrote /tmp/beauty_Image.exr\n".data =
      .ok { initState with
            stats := dset initState.stats "output_image".data
                          (vstr "/tmp/beauty_Image.exr".data),
            found_wrote_line := true } :=
  ((wrote_first_capture initState "Wrote /tmp/beauty_Image.exr\n".data
      (by decide) (by decide) (by decide) (by decide) (by decide) (by decide)
      (by decide) (by decide) (by decide)).2 (by decide)
    "/tmp/beauty_Image.exr".data (by decide)).1 (by decide)

/-- Counterexample to claim C4 as stated: in this log the
`-- Callstack:` line occurs while the render-prep block is active, so
the `elif` chain never reaches the crash check and the resulting
record still has `crash = false`. -/
theorem crash_anywhere_counterexample :
    parse_log_file
        ["- Render Prep Stats -\n".data, "-- Callstack: signal 11\n".data,
         "- MCRT Time Breakdown -\n".data, "Totals 1 GB 2.0 x\n".data] =
      .ok (some [("fallback".data, vbool false), ("crash".data, vbool false),
                 ("total_mcrt_time".data, vnum 2), ("MCRT memory".data, vnum 1)]) ∧
    containsSub "-- Callstack: signal 11\n".data "-- Callstack:".data = true ∧
    dget [("fallback".data, vbool false), ("crash".data, vbool false),
          ("total_mcrt_time".data, vnum 2), ("MCRT memory".data, vnum 1)]
        "crash".data = some (vbool false) :=
  ⟨by decide, by decide, by decide⟩

/-- Claim C4 amended: a line containing `-- Callstack:` sets
`crash=true` exactly when it is reached in the dispatch chain — that
is, when no section block (MCRT breakdown, render prep, memory
summary) is active and the line matches none of the earlier stateless
checks; a callstack line processed while a block is active does not
set the flag. -/
theorem crash_set_when_reached (st : ParseState) (line : Str)
    (h1 : st.in_breakdown = false)
    (h2 : containsSub line "- MCRT Time Breakdown -".data = false)
    (h3 : st.in_render_prep = false)
    (h4 : containsSub line "- Render Prep Stats -".data = false)
    (h5 : st.in_render_prep_memory = false)
    (h6 : containsSub line "- Memory Summary -".data = false)
    (h7 : (containsSub line "Pixel samples".data &&
        !containsSub line "Pixel samples sqrt".data) = false)
    (h8 : containsSub line "Host name".data = false)
    (h9 : containsSub line "Wrote".data = false)
    (h10 : containsSub line "-- Callstack:".data = true) :
    dispatch st line = .ok { st with stats := dset st.stats "crash".data (vbool true) } := by
  unfold dispatch
  rw [h1, h2, h3, h4, h5, h6, h7, h8, h9, h10]
  simp

/-- Witness for the amended C4 at a concrete callstack line reaching
the end of the dispatch chain. -/
theorem crash_set_when_reached_witness :
    dispatch initState "-- Callstack: boom\n".data =
      .ok { initState with stats := dset initState.stats "crash".data (vbool true) } :=
  crash_set_when_reached initState "-- Callstack: boom\n".data
    (by decide) (by decide) (by decide) (by decide) (by decide) (by decide)
    (by decide) (by decide) (by decide) (by decide)

theorem preserves_mono {d d' : Stats} {K K' : List Str} (hsub : K ⊆ K')
    (h : Preserves d d' K) : Preserves d d' K' :=
  ⟨h.1, fun k hk => h.2 k (fun k0 hk0 => hk k0 (hsub hk0))⟩

/-- Every dict key the dispatch chain can possibly write for a given
line (the `crash` key only when the line contains the callstack
marker). -/
def writtenKeys (line : Str) : List Str :=
  ["total_mcrt_time".data, "MCRT memory".data, codeStatName line,
   "total_render_prep_time".data, "total_render_prep_memory".data,
   "pixel_samples".data, "host_name".data, "output_image".data] ++
  render_prep_stats ++ memory_stats ++
  (if containsSub line "-- Callstack:".data then ["crash".data] else [])

set_option maxHeartbeats 1600000 in
theorem dispatch_preserves {st st' : ParseState} {line : Str}
    (h : dispatch st line = .ok st') :
    Preserves st.stats st'.stats (writtenKeys line) := by
  unfold dispatch at h
  split at h
  · split at h
    · refine preserves_mono ?_ ((handleTotals_ok h).2.2.2.2.2)
      intro x hx
      unfold writtenKeys
      simp at hx ⊢
      tauto
    · split at h
      · injection h with h
        subst h
        exact preserves_refl _ _
      · refine preserves_mono ?_ ((handleStatRow_ok h).2)
        intro x hx
        unfold writtenKeys
        simp at hx ⊢
        tauto
  · split at h
    · injection h with h
      subst h
      exact preserves_refl _ _
    · split at h
      · split at h
        · refine preserves_mono ?_ ((handlePrepTotal_ok h).2.2.2.2.2)
          intro x hx
          unfold writtenKeys
          simp at hx ⊢
          tauto
        · split at h
          · rename_i stats2 hscan
            injection h with h
            subst h
            refine scanStatsLoop_ok _ _ _ hscan _ ?_
            intro s hs
            unfold writtenKeys
            simp
            tauto
          · exact (Except.noConfusion h)
      · split at h
        · injection h with h
          subst h
          exact preserves_refl _ _
        · split at h
          · split at h
            · refine preserves_mono ?_ ((handleMemTotal_ok h).2.2.2.2.2)
              intro x hx
              unfold writtenKeys
              simp at hx ⊢
              tauto
            · split at h
              · rename_i stats2 hscan
                injection h with h
                subst h
                refine scanStatsLoop_ok _ _ _ hscan _ ?_
                intro s hs
                unfold writtenKeys
                simp
                tauto
              · exact (Except.noConfusion h)
          · split at h
            · injection h with h
              subst h
              exact preserves_refl _ _
            · split at h
              · refine preserves_mono ?_ ((handlePixel_ok h).2)
                intro x hx
                unfold writtenKeys
                simp at hx ⊢
                tauto
              · split at h
                · refine preserves_mono ?_ ((handleHost_ok h).2)
                  intro x hx
                  unfold writtenKeys
                  simp at hx ⊢
                  tauto
                · split at h
                  · refine preserves_mono ?_ ((handleWrote_ok h).2.2.2.2)
                    intro x hx
                    unfold writtenKeys
                    simp at hx ⊢
                    tauto
                  · split at h
                    · injection h with h
                      subst h
                      refine preserves_dset _ _ _ _ ?_
                      unfold writtenKeys
                      simp_all
                    · injection h with h
                      subst h
                      exact preserves_refl _ _

theorem processLine_isSome {st st' : ParseState} {line : Str}
    (h : processLine st line = .ok st') (k : Str)
    (hk : (dget st.stats k).isSome) : (dget st'.stats k).isSome := by
  unfold processLine at h
  exact (dispatch_preserves h).1 k ((applyFallback_preserves st line).1 k hk)

theorem processLine_crash {st st' : ParseState} {line : Str}
    (h : processLine st line = .ok st')
    (hcs : containsSub line "-- Callstack:".data = false)
    (hname : codeStatName line ≠ "crash".data) :
    dget st'.stats "crash".data = dget st.stats "crash".data := by
  unfold processLine at h
  have h1 : dget (applyFallback st line).stats "crash".data = dget st.stats "crash".data := by
    refine (applyFallback_preserves st line).2 _ ?_
    intro k0 hk0
    simp at hk0
    rcases hk0 with rfl | rfl <;> decide
  have h2 : dget st'.stats "crash".data = dget (applyFallback st line).stats "crash".data := by
    refine (dispatch_preserves h).2 _ ?_
    intro k0 hk0
    unfold writtenKeys at hk0
    rw [hcs] at hk0
    simp [render_prep_stats, memory_stats] at hk0
    rcases hk0 with rfl | rfl | rfl | rfl | rfl | rfl | rfl | rfl | rfl | rfl |
      rfl | rfl | rfl | rfl | rfl | rfl | rfl | rfl
    all_goals first
      | decide
      | exact Ne.symm hname
  rw [h2, h1]

theorem not_in_writtenKeys {line : Str} {k : Str}
    (h1 : k ≠ "total_mcrt_time".data) (h2 : k ≠ "MCRT memory".data)
    (h3 : k ≠ codeStatName line) (h4 : k ≠ "total_render_prep_time".data)
    (h5 : k ≠ "total_render_prep_memory".data) (h6 : k ≠ "pixel_samples".data)
    (h7 : k ≠ "host_name".data) (h8 : k ≠ "output_image".data)
    (h9 : ∀ s ∈ render_prep_stats, k ≠ s) (h10 : ∀ s ∈ memory_stats, k ≠ s)
    (h11 : containsSub line "-- Callstack:".data = true → k ≠ "crash".data) :
    ∀ k0 ∈ writtenKeys line, k ≠ k0 := by
  intro k0 hk0
  unfold writtenKeys at hk0
  rw [List.mem_append, List.mem_append, List.mem_append] at hk0
  rcases hk0 with ((hf | hp) | hm) | hite
  · simp only [List.mem_cons, List.not_mem_nil, or_false] at hf
    rcases hf with rfl | rfl | rfl | rfl | rfl | rfl | rfl | rfl <;> assumption
  · exact h9 k0 hp
  · exact h10 k0 hm
  · by_cases hb : containsSub line "-- Callstack:".data = true
    · rw [if_pos hb] at hite
      simp only [List.mem_cons, List.not_mem_nil, or_false] at hite
      subst hite
      exact h11 hb
    · rw [if_neg hb] at hite
      exact absurd hite (List.not_mem_nil k0)

theorem processLine_fallback {st st' : ParseState} {line : Str}
    (h : processLine st line = .ok st')
    (hq : fallbackQualMatch line = false)
    (hname : codeStatName line ≠ "fallback".data) :
    dget st'.stats "fallback".data = dget st.stats "fallback".data := by
  unfold processLine at h
  rw [applyFallback_of_not_qual hq] at h
  refine (dispatch_preserves h).2 _
    (not_in_writtenKeys (by decide) (by decide) (Ne.symm hname) (by decide)
      (by decide) (by decide) (by decide) (by decide) (by decide) (by decide)
      (fun _ => by decide))

theorem runLines_isSome {lines : List Str} : ∀ {st st' : ParseState},
    runLines st lines = .ok st' → ∀ k : Str,
    (dget st.stats k).isSome → (dget st'.stats k).isSome := by
  induction lines with
  | nil =>
    intro st st' h k hk
    injection h with h
    subst h
    exact hk
  | cons l ls ih =>
    intro st st' h k hk
    simp only [runLines] at h
    split at h
    · rename_i st1 heq
      exact ih h k (processLine_isSome heq k hk)
    · exact (Except.noConfusion h)

theorem runLines_crash {lines : List Str} : ∀ {st st' : ParseState},
    runLines st lines = .ok st' →
    (∀ l ∈ lines, containsSub l "-- Callstack:".data = false ∧
      codeStatName l ≠ "crash".data) →
    dget st'.stats "crash".data = dget st.stats "crash".data := by
  induction lines with
  | nil =>
    intro st st' h _
    injection h with h
    subst h
    rfl
  | cons l ls ih =>
    intro st st' h hl
    simp only [runLines] at h
    split at h
    · rename_i st1 heq
      rw [ih h (fun t ht => hl t (by simp [ht]))]
      exact processLine_crash heq (hl l (by simp)).1 (hl l (by simp)).2
    · exact (Except.noConfusion h)

theorem runLines_fallback {lines : List Str} : ∀ {st st' : ParseState},
    runLines st lines = .ok st' →
    (∀ l ∈ lines, fallbackQualMatch l = false ∧
      codeStatName l ≠ "fallback".data) →
    dget st'.stats "fallback".data = dget st.stats "fallback".data := by
  induction lines with
  | nil =>
    intro st st' h _
    injection h with h
    subst h
    rfl
  | cons l ls ih =>
    intro st st' h hl
    simp only [runLines] at h
    split at h
    · rename_i st1 heq
      rw [ih h (fun t ht => hl t (by simp [ht]))]
      exact processLine_fallback heq (hl l (by simp)).1 (hl l (by simp)).2
    · exact (Except.noConfusion h)

/-- Counterexample to claim C8 as stated: an MCRT breakdown stat row
whose parsed name is literally `crash` overwrites the boolean default
(last-write-wins), so the produced record has `crash = 1.0` even
though no line contains the `-- Callstack:` marker. -/
theorem flags_default_counterexample :
    parse_log_file
        ["- MCRT Time Breakdown -\n".data, " x | crash  1.0 x\n".data,
         "Totals 1 GB 2.0 x\n".data] =
      .ok (some [("fallback".data, vbool false), ("crash".data, vnum 1),
                 ("total_mcrt_time".data, vnum 2), ("MCRT memory".data, vnum 1)]) ∧
    (["- MCRT Time Breakdown -\n".data, " x | crash  1.0 x\n".data,
      "Totals 1 GB 2.0 x\n".data].all
        (fun l => !containsSub l "-- Callstack:".data)) = true ∧
    dget [("fallback".data, vbool false), ("crash".data, vnum 1),
          ("total_mcrt_time".data, vnum 2), ("MCRT memory".data, vnum 1)]
        "crash".data ≠ some (vbool false) :=
  ⟨by decide, by decide, by decide⟩

/-- Claim C8 amended: whenever extraction produces a record, the keys
`fallback` and `crash` are both present; `crash` still holds its
default `false` provided no line contains `-- Callstack:` and no
line's MCRT stat-row tokenization yields the name `crash` (a breakdown
row named `crash` would overwrite the default), and symmetrically
`fallback` holds `false` provided no line matches the fallback regex
with a qualifying pair and none tokenizes to the name `fallback`. -/
theorem flags_present_and_default (lines : List Str) (r : Stats)
    (h : parse_log_file lines = .ok (some r)) :
    (dget r "fallback".data).isSome ∧ (dget r "crash".data).isSome ∧
    ((∀ l ∈ lines, containsSub l "-- Callstack:".data = false ∧
        codeStatName l ≠ "crash".data) →
      dget r "crash".data = some (vbool false)) ∧
    ((∀ l ∈ lines, fallbackQualMatch l = false ∧
        codeStatName l ≠ "fallback".data) →
      dget r "fallback".data = some (vbool false)) := by
  unfold parse_log_file at h
  split at h
  · rename_i st heq
    split at h
    · injection h with h
      have hr : st.stats = r := by
        injection h
      subst hr
      refine ⟨?_, ?_, ?_, ?_⟩
      · exact runLines_isSome heq "fallback".data (by decide)
      · exact runLines_isSome heq "crash".data (by decide)
      · intro hl
        rw [runLines_crash heq hl]
        decide
      · intro hl
        rw [runLines_fallback heq hl]
        decide
    · exact (Option.noConfusion (Except.ok.inj h))
  · exact (Except.noConfusion h)

/-- Witness for the amended C8 on a minimal two-line log with neither
callstack lines nor colliding stat-row names: both keys present, both
defaults false. -/
theorem flags_present_and_default_witness :
    (dget [("fallback".data, vbool false), ("crash".data, vbool false),
           ("total_mcrt_time".data, vnum 2), ("MCRT memory".data, vnum 1)]
        "fallback".data).isSome ∧
    dget [("fallback".data, vbool false), ("crash".data, vbool false),
          ("total_mcrt_time".data, vnum 2), ("MCRT memory".data, vnum 1)]
        "crash".data = some (vbool false) := by
  have h := flags_present_and_default
    ["- MCRT Time Breakdown -\n".data, "Totals 1 GB 2.0 x\n".data]
    [("fallback".data, vbool false), ("crash".data, vbool false),
     ("total_mcrt_time".data, vnum 2), ("MCRT memory".data, vnum 1)]
    (by decide)
  exact ⟨h.1, h.2.2.1 (by decide)⟩

/-! ### Claim C5: the two stat-name computations agree -/

/-- Drop everything up to and including the first `'|'` (the direct
split on the `|` delimiter proposed by the spec). -/
def afterFirstPipe : Str → Str
  | [] => []
  | c :: cs => if c = '|' then cs else afterFirstPipe cs

/-- Take characters until a run of two or more spaces begins. -/
def takeUntilDoubleSpace : Str → Str
  | [] => []
  | [c] => [c]
  | a :: b :: rest =>
    if a = ' ' ∧ b = ' ' then [] else a :: takeUntilDoubleSpace (b :: rest)

/-- Trim leading and trailing spaces. -/
def trimSpaces (s : Str) : Str :=
  ((s.dropWhile (fun c => c = ' ')).reverse.dropWhile (fun c => c = ' ')).reverse

/-- The spec's description of the stat name: the text between the
first `|` delimiter and the next run of two-or-more spaces, trimmed. -/
def specStatName (line : Str) : Str :=
  trimSpaces (takeUntilDoubleSpace (afterFirstPipe line))

/-- Words joined by single spaces. -/
def joinWords : List Str → Str
  | [] => []
  | [w] => w
  | w :: ws => w ++ ' ' :: joinWords ws

/-- Words joined with a single trailing space after each (the raw
accumulator the source's flag loop builds). -/
def joinTrail : List Str → Str
  | [] => []
  | w :: ws => w ++ ' ' :: joinTrail ws

theorem splitChar_ne_nil (c : Char) (s : Str) : splitChar c s ≠ [] := by
  cases s with
  | nil => simp [splitChar]
  | cons x xs =>
    unfold splitChar
    split
    · simp
    · split <;> simp

theorem splitChar_cons_sep (c : Char) (xs : Str) :
    splitChar c (c :: xs) = [] :: splitChar c xs := by
  conv_lhs => rw [splitChar]
  rw [if_pos rfl]

theorem splitChar_cons_ne (c x : Char) (xs : Str) (hx : x ≠ c) :
    splitChar c (x :: xs) =
      match splitChar c xs with
      | t :: ts => (x :: t) :: ts
      | [] => [[x]] := by
  conv_lhs => rw [splitChar]
  rw [if_neg hx]

theorem splitChar_append (c : Char) (xs ys : Str) :
    splitChar c (xs ++ c :: ys) = splitChar c xs ++ splitChar c ys := by
  induction xs with
  | nil =>
    rw [List.nil_append, splitChar_cons_sep]
    rfl
  | cons x xs ih =>
    rw [List.cons_append]
    by_cases hx : x = c
    · subst hx
      rw [splitChar_cons_sep, splitChar_cons_sep, ih, List.cons_append]
    · obtain ⟨t, ts, hts⟩ := List.exists_cons_of_ne_nil (splitChar_ne_nil c xs)
      rw [splitChar_cons_ne c x _ hx, splitChar_cons_ne c x _ hx, ih, hts,
        List.cons_append]
      rfl

theorem splitChar_no_sep (c : Char) (s : Str) (h : ∀ a ∈ s, a ≠ c) :
    splitChar c s = [s] := by
  induction s with
  | nil => rfl
  | cons x xs ih =>
    have hx : x ≠ c := h x (by simp)
    rw [splitChar_cons_ne c x _ hx, ih (fun a ha => h a (by simp [ha]))]

theorem splitChar_chars (c : Char) (s : Str) :
    ∀ t ∈ splitChar c s, ∀ a ∈ t, a ∈ s := by
  induction s with
  | nil =>
    intro t ht a ha
    simp [splitChar] at ht
    subst ht
    exact absurd ha (List.not_mem_nil a)
  | cons x xs ih =>
    intro t ht a ha
    by_cases hx : x = c
    · subst hx
      rw [splitChar_cons_sep] at ht
      rcases List.mem_cons.mp ht with rfl | ht2
      · exact absurd ha (List.not_mem_nil a)
      · exact List.mem_cons_of_mem _ (ih t ht2 a ha)
    · obtain ⟨t0, ts0, hts⟩ := List.exists_cons_of_ne_nil (splitChar_ne_nil c xs)
      rw [splitChar_cons_ne c x _ hx, hts] at ht
      rcases List.mem_cons.mp ht with rfl | ht2
      · rcases List.mem_cons.mp ha with rfl | ha0
        · exact List.mem_cons_self a xs
        · exact List.mem_cons_of_mem _
            (ih t0 (by rw [hts]; exact List.mem_cons_self _ _) a ha0)
      · exact List.mem_cons_of_mem _
          (ih t (by rw [hts]; exact List.mem_cons_of_mem _ ht2) a ha)

theorem splitChar_joinWords (ws : List Str) (hws : ws ≠ [])
    (hword : ∀ w ∈ ws, ∀ ch ∈ w, ch ≠ ' ') :
    splitChar ' ' (joinWords ws) = ws := by
  induction ws with
  | nil => exact absurd rfl hws
  | cons w ws ih =>
    cases ws with
    | nil =>
      show splitChar ' ' w = [w]
      exact splitChar_no_sep ' ' w (hword w (by simp))
    | cons w2 ws2 =>
      show splitChar ' ' (w ++ ' ' :: joinWords (w2 :: ws2)) = w :: w2 :: ws2
      rw [splitChar_append, splitChar_no_sep ' ' w (hword w (by simp)),
        ih (by simp) (fun t ht ch hch => hword t (by simp [ht]) ch hch)]
      rfl

theorem statNameLoop_cons (flag : Bool) (acc t : Str) (ts : List Str) :
    statNameLoop flag acc (t :: ts) =
      statNameLoop
        (if t = ['|'] then true
         else if (flag && t.isEmpty) = true then false else flag)
        (if (flag && !t.isEmpty) = true then acc ++ t ++ [' '] else acc) ts := rfl

theorem statNameLoop_false_skip (acc : Str) (ts more : List Str)
    (h : ∀ t ∈ ts, t ≠ ['|']) :
    statNameLoop false acc (ts ++ more) = statNameLoop false acc more := by
  induction ts with
  | nil => rfl
  | cons t ts ih =>
    rw [List.cons_append, statNameLoop_cons, if_neg (h t (by simp))]
    simp only [Bool.false_and, Bool.false_eq_true, if_false]
    exact ih (fun u hu => h u (List.mem_cons_of_mem _ hu))

theorem statNameLoop_pipe (acc : Str) (ts : List Str) :
    statNameLoop false acc (['|'] :: ts) = statNameLoop true acc ts := by
  rw [statNameLoop_cons, if_pos rfl]
  simp only [Bool.false_and, Bool.false_eq_true, if_false]

theorem statNameLoop_words (ws : List Str) (acc : Str) (more : List Str)
    (h : ∀ w ∈ ws, w ≠ []) :
    statNameLoop true acc (ws ++ [] :: more) =
      statNameLoop false (acc ++ joinTrail ws) more := by
  induction ws generalizing acc with
  | nil =>
    rw [List.nil_append, statNameLoop_cons, if_neg (by simp), if_pos (by rfl),
      if_neg (by simp)]
    rw [show joinTrail [] = [] from rfl, List.append_nil]
  | cons w ws ih =>
    obtain ⟨ch, wtail, rfl⟩ := List.exists_cons_of_ne_nil (h w (by simp))
    rw [List.cons_append, statNameLoop_cons,
      if_pos (show (true && !(ch :: wtail).isEmpty) = true from rfl)]
    have hflag : (if (ch :: wtail) = ['|'] then true
        else if (true && (ch :: wtail).isEmpty) = true then false else true) = true := by
      split
      · rfl
      · rw [if_neg (by simp)]
    rw [hflag, ih _ (fun u hu => h u (List.mem_cons_of_mem _ hu))]
    rw [show joinTrail ((ch :: wtail) :: ws) = (ch :: wtail) ++ ' ' :: joinTrail ws
      from rfl]
    simp [List.append_assoc]

theorem joinTrail_ne_nil (w : Str) (ws : List Str) : joinTrail (w :: ws) ≠ [] := by
  show w ++ ' ' :: joinTrail ws ≠ []
  simp

theorem dropLast_joinTrail (ws : List Str) (hws : ws ≠ []) :
    (joinTrail ws).dropLast = joinWords ws := by
  induction ws with
  | nil => exact absurd rfl hws
  | cons w ws ih =>
    cases ws with
    | nil =>
      show (w ++ [' ']).dropLast = w
      simp
    | cons w2 ws2 =>
      show (w ++ ' ' :: joinTrail (w2 :: ws2)).dropLast = w ++ ' ' :: joinWords (w2 :: ws2)
      rw [List.dropLast_append_cons,
        List.dropLast_cons_of_ne_nil (joinTrail_ne_nil w2 ws2), ih (by simp)]

theorem afterFirstPipe_append (pre T : Str) (hpre : ∀ c ∈ pre, c ≠ '|') :
    afterFirstPipe (pre ++ '|' :: T) = T := by
  induction pre with
  | nil =>
    show afterFirstPipe ('|' :: T) = T
    rw [afterFirstPipe, if_pos rfl]
  | cons c pre ih =>
    rw [List.cons_append, afterFirstPipe, if_neg (hpre c (by simp)),
      ih (fun a ha => hpre a (List.mem_cons_of_mem _ ha))]

theorem tuds_cons_cons (a b : Char) (r : Str) (hab : ¬(a = ' ' ∧ b = ' ')) :
    takeUntilDoubleSpace (a :: b :: r) = a :: takeUntilDoubleSpace (b :: r) := by
  conv_lhs => rw [takeUntilDoubleSpace]
  rw [if_neg hab]

theorem tuds_double (r : Str) : takeUntilDoubleSpace (' ' :: ' ' :: r) = [] := by
  conv_lhs => rw [takeUntilDoubleSpace]
  rw [if_pos ⟨rfl, rfl⟩]

theorem tuds_append_word (w : Str) (T : Str) (hw : w ≠ [])
    (hsp : ∀ c ∈ w, c ≠ ' ') :
    takeUntilDoubleSpace (w ++ T) = w ++ takeUntilDoubleSpace T := by
  induction w with
  | nil => exact absurd rfl hw
  | cons ch wtail ih =>
    cases wtail with
    | nil =>
      cases T with
      | nil => rfl
      | cons t ts =>
        have hch : ch ≠ ' ' := hsp ch (by simp)
        rw [List.cons_append, List.nil_append,
          tuds_cons_cons ch t ts (fun hc => hch hc.1)]
        rfl
    | cons c2 wrest =>
      have hch : ch ≠ ' ' := hsp ch (by simp)
      rw [List.cons_append,
        show ((c2 :: wrest) ++ T) = c2 :: (wrest ++ T) from rfl,
        tuds_cons_cons ch c2 _ (fun hc => hch hc.1),
        show (c2 :: (wrest ++ T)) = (c2 :: wrest) ++ T from rfl,
        ih (by simp) (fun c hc => hsp c (List.mem_cons_of_mem _ hc))]
      rfl

theorem joinWords_head (ws : List Str) (hws : ws ≠ [])
    (hword : ∀ w ∈ ws, w ≠ [] ∧ ∀ c ∈ w, c ≠ ' ') :
    ∃ (c : Char) (Y : Str), joinWords ws = c :: Y ∧ c ≠ ' ' := by
  cases ws with
  | nil => exact absurd rfl hws
  | cons w ws =>
    obtain ⟨ch, wtail, rfl⟩ := List.exists_cons_of_ne_nil (hword w (by simp)).1
    have hch : ch ≠ ' ' := (hword (ch :: wtail) (by simp)).2 ch (by simp)
    cases ws with
    | nil => exact ⟨ch, wtail, rfl, hch⟩
    | cons w2 ws2 =>
      exact ⟨ch, wtail ++ ' ' :: joinWords (w2 :: ws2), rfl, hch⟩

theorem joinWords_last (ws : List Str) (hws : ws ≠ [])
    (hword : ∀ w ∈ ws, w ≠ [] ∧ ∀ c ∈ w, c ≠ ' ') :
    ∃ (Y : Str) (c : Char), joinWords ws = Y ++ [c] ∧ c ≠ ' ' := by
  induction ws with
  | nil => exact absurd rfl hws
  | cons w ws ih =>
    cases ws with
    | nil =>
      have hw := (hword w (by simp)).1
      refine ⟨w.dropLast, w.getLast hw, ?_, ?_⟩
      · exact (List.dropLast_concat_getLast hw).symm
      · exact (hword w (by simp)).2 _ (List.getLast_mem hw)
    | cons w2 ws2 =>
      obtain ⟨Y, c, hYc, hc⟩ := ih (by simp)
        (fun u hu => hword u (List.mem_cons_of_mem _ hu))
      refine ⟨w ++ ' ' :: Y, c, ?_, hc⟩
      show w ++ ' ' :: joinWords (w2 :: ws2) = (w ++ ' ' :: Y) ++ [c]
      rw [hYc, List.append_assoc, List.cons_append]

theorem tuds_space_cons (c : Char) (hc : c ≠ ' ') (X : Str) :
    takeUntilDoubleSpace (' ' :: c :: X) = ' ' :: takeUntilDoubleSpace (c :: X) :=
  tuds_cons_cons ' ' c X (fun h => hc h.2)

theorem tuds_join (ws : List Str) (r : Str) (hws : ws ≠ [])
    (hword : ∀ w ∈ ws, w ≠ [] ∧ ∀ c ∈ w, c ≠ ' ') :
    takeUntilDoubleSpace (joinWords ws ++ ' ' :: ' ' :: r) = joinWords ws := by
  induction ws with
  | nil => exact absurd rfl hws
  | cons w ws ih =>
    cases ws with
    | nil =>
      show takeUntilDoubleSpace (w ++ ' ' :: ' ' :: r) = w
      rw [tuds_append_word w _ (hword w (by simp)).1 (hword w (by simp)).2,
        tuds_double, List.append_nil]
    | cons w2 ws2 =>
      show takeUntilDoubleSpace ((w ++ ' ' :: joinWords (w2 :: ws2)) ++ ' ' :: ' ' :: r) =
        w ++ ' ' :: joinWords (w2 :: ws2)
      obtain ⟨c, Y, hcY, hc⟩ := joinWords_head (w2 :: ws2) (by simp)
        (fun u hu => hword u (List.mem_cons_of_mem _ hu))
      rw [List.append_assoc, List.cons_append,
        tuds_append_word w _ (hword w (by simp)).1 (hword w (by simp)).2, hcY,
        List.cons_append, tuds_space_cons c hc (Y ++ ' ' :: ' ' :: r),
        ← List.cons_append, ← hcY,
        ih (by simp) (fun u hu => hword u (List.mem_cons_of_mem _ hu))]

theorem trimSpaces_space_join (ws : List Str) (hws : ws ≠ [])
    (hword : ∀ w ∈ ws, w ≠ [] ∧ ∀ c ∈ w, c ≠ ' ') :
    trimSpaces (' ' :: joinWords ws) = joinWords ws := by
  obtain ⟨c, Y, hcY, hc⟩ := joinWords_head ws hws hword
  obtain ⟨Z, d, hZd, hd⟩ := joinWords_last ws hws hword
  unfold trimSpaces
  rw [List.dropWhile_cons, if_pos (by decide), hcY, List.dropWhile_cons,
    if_neg (by simp [hc]), ← hcY, hZd]
  rw [show (Z ++ [d]).reverse = d :: Z.reverse by simp]
  rw [List.dropWhile_cons, if_neg (by simp [hd])]
  simp

/-- Claim C5: for an MCRT stat-row line of the shape
`<pre>| <w1 w2 ... wk>  <rest>` — tokens separated by single spaces,
the stat name delimited by `|` and terminated by a run of two spaces,
with `pre` and `rest` containing no `|` and the name words nonempty
and free of spaces and pipes — the source's flag-based tokenization
(`codeStatName`) produces the same stat name as the direct split on
the first `|` delimiter up to the next run of two-or-more spaces,
trimmed (`specStatName`); both equal the words joined by single
spaces. -/
theorem stat_name_tokenizations_agree (line pre rest : Str) (ws : List Str)
    (hline : line = pre ++ '|' :: ' ' :: (joinWords ws ++ ' ' :: ' ' :: rest))
    (hpre : ∀ c ∈ pre, c ≠ '|')
    (hpre2 : pre = [] ∨ ∃ pre0, pre = pre0 ++ [' '])
    (hws : ws ≠ [])
    (hword : ∀ w ∈ ws, w ≠ [] ∧ ∀ c ∈ w, c ≠ ' ' ∧ c ≠ '|')
    (hrest : ∀ c ∈ rest, c ≠ '|') :
    codeStatName line = specStatName line ∧ codeStatName line = joinWords ws := by
  have hwordNE : ∀ w ∈ ws, w ≠ [] := fun w hw => (hword w hw).1
  have hword2 : ∀ w ∈ ws, w ≠ [] ∧ ∀ c ∈ w, c ≠ ' ' :=
    fun w hw => ⟨(hword w hw).1, fun c hc => ((hword w hw).2 c hc).1⟩
  have hsplitT : splitChar ' ' (joinWords ws ++ ' ' :: ' ' :: rest) =
      ws ++ [] :: splitChar ' ' rest := by
    rw [splitChar_append, splitChar_joinWords ws hws
      (fun w hw c hc => ((hword w hw).2 c hc).1), splitChar_cons_sep]
  have hrestTok : ∀ t ∈ splitChar ' ' rest, t ≠ ['|'] := by
    intro t ht hteq
    subst hteq
    exact hrest '|' (splitChar_chars ' ' rest _ ht '|' (by simp)) rfl
  have hloop : statNameLoop true [] (ws ++ [] :: splitChar ' ' rest) = joinTrail ws := by
    rw [statNameLoop_words ws [] _ hwordNE, List.nil_append,
      ← List.append_nil (splitChar ' ' rest),
      statNameLoop_false_skip _ _ _ hrestTok]
    rfl
  have hcode : codeStatName line = joinWords ws := by
    unfold codeStatName
    subst hline
    rcases hpre2 with rfl | ⟨pre0, rfl⟩
    · rw [List.nil_append,
        splitChar_cons_ne ' ' '|' _ (by decide), splitChar_cons_sep, hsplitT]
      show (statNameLoop false [] (['|'] :: (ws ++ [] :: splitChar ' ' rest))).dropLast = _
      rw [statNameLoop_pipe, hloop, dropLast_joinTrail ws hws]
    · have hpre0 : ∀ t ∈ splitChar ' ' pre0, t ≠ ['|'] := by
        intro t ht hteq
        subst hteq
        exact hpre '|' (by
          refine List.mem_append.mpr (Or.inl ?_)
          exact splitChar_chars ' ' pre0 _ ht '|' (by simp)) rfl
      rw [List.append_assoc,
        show ([' '] ++ '|' :: ' ' :: (joinWords ws ++ ' ' :: ' ' :: rest)) =
          ' ' :: ('|' :: ' ' :: (joinWords ws ++ ' ' :: ' ' :: rest)) from rfl,
        splitChar_append,
        splitChar_cons_ne ' ' '|' _ (by decide), splitChar_cons_sep, hsplitT,
        statNameLoop_false_skip _ _ _ hpre0]
      show (statNameLoop false [] (['|'] :: (ws ++ [] :: splitChar ' ' rest))).dropLast = _
      rw [statNameLoop_pipe, hloop, dropLast_joinTrail ws hws]
  have hspec : specStatName line = joinWords ws := by
    unfold specStatName
    subst hline
    rw [afterFirstPipe_append pre _ hpre]
    obtain ⟨c, Y, hcY, hc⟩ := joinWords_head ws hws hword2
    rw [hcY, List.cons_append, tuds_space_cons c hc, ← List.cons_append, ← hcY,
      tuds_join ws rest hws hword2]
    exact trimSpaces_space_join ws hws hword2
  exact ⟨hcode.trans hspec.symm, hcode⟩

/-- Witness for C5 on a concrete MCRT stat row: both tokenizations
produce `Embree intersection`. -/
theorem stat_name_tokenizations_agree_witness :
    codeStatName "  12% | Embree intersection  1,234.5 x\n".data =
      specStatName "  12% | Embree intersection  1,234.5 x\n".data ∧
    codeStatName "  12% | Embree intersection  1,234.5 x\n".data =
      joinWords ["Embree".data, "intersection".data] := by
  have h := stat_name_tokenizations_agree
    "  12% | Embree intersection  1,234.5 x\n".data
    "  12% ".data "1,234.5 x\n".data ["Embree".data, "intersection".data]
    (by decide) (by decide) (Or.inr ⟨"  12%".data, by decide⟩) (by decide)
    (by decide) (by decide)
  exact h

/-! ### Claim C10: the fallback regex match is anchored -/

/-- A full fallback sentence with the two mode placeholders. -/
def fallbackSentence (A B : Str) : Str :=
  lit1 ++ A ++ lit2 ++ B ++ ['.']

theorem fallbackMatch_not_anchored {line : Str}
    (h : lit1.isPrefixOf line = false) : fallbackMatch line = none := by
  unfold fallbackMatch
  rw [h]
  simp

theorem applyFallback_not_anchored {st : ParseState} {line : Str}
    (h : lit1.isPrefixOf line = false) : applyFallback st line = st := by
  unfold applyFallback
  rw [fallbackMatch_not_anchored h]

theorem lit1_no_overlap (p Y : Str) (hp : p ≠ [])
    (h : lit1.isPrefixOf (p ++ (lit1 ++ Y)) = true) : 12 ≤ p.length := by
  by_contra hlt
  push_neg at hlt
  have hpos : 0 < p.length := List.length_pos.mpr hp
  have hpref : lit1 <+: p ++ (lit1 ++ Y) := List.isPrefixOf_iff_prefix.mp h
  obtain ⟨t, ht⟩ := hpref
  have h12 : List.take 12 (p ++ (lit1 ++ Y)) = lit1 := by
    rw [← ht, List.take_append_of_le_length (by decide),
      List.take_of_length_le (by decide)]
  have hl12 : lit1.length = 12 := by decide
  rw [List.take_append_eq_append_take,
    List.take_of_length_le (le_of_lt hlt),
    List.take_append_of_le_length (by rw [hl12]; omega)] at h12
  have hd : List.take (12 - p.length) lit1 = List.drop p.length lit1 := by
    have := congrArg (List.drop p.length) h12
    rwa [List.drop_left] at this
  have hlen12 : lit1.length = 12 := by decide
  set d := p.length with hdef
  interval_cases d
  all_goals exact absurd hd (by decide)

theorem checkSplit_isSome_lt {R : Str} {i : Nat}
    (h : (checkSplit R i).isSome = true) : i < R.length := by
  unfold checkSplit at h
  split at h
  · rename_i hcond
    rw [Bool.and_eq_true] at hcond
    have hpre : lit2 <+: R.drop i := List.isPrefixOf_iff_prefix.mp hcond.2
    by_contra hge
    push_neg at hge
    rw [List.drop_eq_nil_of_le hge, List.prefix_nil] at hpre
    exact absurd hpre (by decide)
  · simp at h

theorem findSplitAux_sound (R : Str) :
    ∀ (n i : Nat) (g2 : Str), findSplitAux R n = some (i, g2) →
      checkSplit R i = some g2 := by
  intro n
  induction n with
  | zero =>
    intro i g2 h
    unfold findSplitAux at h
    split at h
    · rename_i g2x hg
      injection h with h
      injection h with h1 h2
      subst h1
      subst h2
      exact hg
    · exact (Option.noConfusion h)
  | succ n ih =>
    intro i g2 h
    unfold findSplitAux at h
    split at h
    · rename_i g2x hg
      injection h with h
      injection h with h1 h2
      subst h1
      subst h2
      exact hg
    · exact ih i g2 h

theorem findSplitAux_ge (R : Str) :
    ∀ (n i0 : Nat), i0 ≤ n → (checkSplit R i0).isSome = true →
      ∃ (i : Nat) (g2 : Str), findSplitAux R n = some (i, g2) ∧ i0 ≤ i := by
  intro n
  induction n with
  | zero =>
    intro i0 h0 hs
    have hi0 : i0 = 0 := Nat.le_zero.mp h0
    subst hi0
    obtain ⟨g2, hg⟩ := Option.isSome_iff_exists.mp hs
    refine ⟨0, g2, ?_, le_refl 0⟩
    unfold findSplitAux
    rw [hg]
  | succ n ih =>
    intro i0 h0 hs
    unfold findSplitAux
    cases hc : checkSplit R (n + 1) with
    | some g2 => exact ⟨n + 1, g2, rfl, h0⟩
    | none =>
      have h0n : i0 ≤ n := by
        rcases Nat.lt_or_ge i0 (n + 1) with hlt | hge
        · omega
        · exfalso
          have hi0 : i0 = n + 1 := by omega
          rw [hi0, hc] at hs
          exact absurd hs (by simp)
      obtain ⟨i, g2, hfind, hge⟩ := ih i0 h0n hs
      exact ⟨i, g2, hfind, hge⟩

theorem takeWhile_concat_le (p : Char → Bool) (B : Str) (c : Char)
    (hc : p c = false) :
    (List.takeWhile p (B ++ [c])).length ≤ B.length := by
  induction B with
  | nil => simp [List.takeWhile_cons, hc]
  | cons b B ih =>
    rw [List.cons_append, List.takeWhile_cons]
    split
    · simpa using ih
    · simp

theorem tailMatch_dot_isSome (B : Str) : (tailMatch (B ++ ['.'])).isSome = true := by
  unfold tailMatch
  rw [if_pos ?hlt]
  case hlt =>
    have h1 := takeWhile_concat_le (fun c => decide (c ≠ '.')) B '.' (by simp)
    have h2 : (B ++ ['.']).length = B.length + 1 := by simp
    omega
  simp

theorem drop12_decomp (p A B : Str) (hp12 : 12 ≤ p.length) :
    (p ++ fallbackSentence A B).drop lit1.length =
      (p.drop 12 ++ lit1 ++ A) ++ (lit2 ++ (B ++ ['.'])) := by
  have hl12 : lit1.length = 12 := by decide
  rw [hl12, List.drop_append_of_le_length hp12]
  unfold fallbackSentence
  simp [List.append_assoc]

theorem checkSplit_sentence (p A B : Str) (hp12 : 12 ≤ p.length)
    (hpNL : ∀ c ∈ p, c ≠ '\n') (hANL : ∀ c ∈ A, c ≠ '\n') :
    (checkSplit ((p ++ fallbackSentence A B).drop lit1.length)
      (p.drop 12 ++ lit1 ++ A).length).isSome = true := by
  rw [drop12_decomp p A B hp12]
  unfold checkSplit
  rw [if_pos ?hc]
  case hc =>
    rw [List.take_left, List.drop_left, Bool.and_eq_true]
    constructor
    · rw [List.all_eq_true]
      intro c hc
      rcases List.mem_append.mp hc with hca | hcA
      · rcases List.mem_append.mp hca with hcp | hcl
        · simpa using hpNL c (List.mem_of_mem_drop hcp)
        · have hlit : ∀ a ∈ lit1, a ≠ '\n' := by decide
          simpa using hlit c hcl
      · simpa using hANL c hcA
    · exact List.isPrefixOf_iff_prefix.mpr (List.prefix_append lit2 _)
  have hd : List.drop ((p.drop 12 ++ lit1 ++ A).length + lit2.length)
      ((p.drop 12 ++ lit1 ++ A) ++ (lit2 ++ (B ++ ['.']))) = B ++ ['.'] := by
    rw [show (p.drop 12 ++ lit1 ++ A) ++ (lit2 ++ (B ++ ['.'])) =
        ((p.drop 12 ++ lit1 ++ A) ++ lit2) ++ (B ++ ['.']) by
      simp [List.append_assoc]]
    rw [← List.length_append]
    exact List.drop_left _ _
  rw [hd]
  exact tailMatch_dot_isSome B

/-- Claim C10 (implicit): the fallback regex is applied with an
anchored match, so the fallback sentence is recognized only when it
starts at the very first character of a line; for every line in which
a full fallback sentence is preceded by any other (newline-free) text
— e.g. a timestamp prefix — the fallback check leaves the state
entirely unchanged. -/
theorem fallback_anchored (st : ParseState) (p A B : Str)
    (hp : p ≠ []) (hpNL : ∀ c ∈ p, c ≠ '\n') (hANL : ∀ c ∈ A, c ≠ '\n') :
    applyFallback st (p ++ fallbackSentence A B) = st := by
  cases hpre : lit1.isPrefixOf (p ++ fallbackSentence A B) with
  | false => exact applyFallback_not_anchored hpre
  | true =>
    have hsent : fallbackSentence A B = lit1 ++ (A ++ (lit2 ++ (B ++ ['.']))) := by
      unfold fallbackSentence
      simp [List.append_assoc]
    have hp12 : 12 ≤ p.length :=
      lit1_no_overlap p _ hp (by rw [← hsent]; exact hpre)
    have hvalid := checkSplit_sentence p A B hp12 hpNL hANL
    have hRlen : (p.drop 12 ++ lit1 ++ A).length ≤
        ((p ++ fallbackSentence A B).drop lit1.length).length := by
      rw [drop12_decomp p A B hp12]
      simp only [List.length_append]
      omega
    obtain ⟨i, g2, hfind, hge⟩ :=
      findSplitAux_ge ((p ++ fallbackSentence A B).drop lit1.length)
        ((p ++ fallbackSentence A B).drop lit1.length).length
        (p.drop 12 ++ lit1 ++ A).length hRlen hvalid
    unfold applyFallback fallbackMatch
    rw [if_pos hpre, hfind]
    dsimp only
    have hisome : (checkSplit ((p ++ fallbackSentence A B).drop lit1.length) i).isSome = true := by
      rw [findSplitAux_sound _ _ i g2 hfind]
      rfl
    have hilt := checkSplit_isSome_lt hisome
    have hilen : (((p ++ fallbackSentence A B).drop lit1.length).take i).length = i := by
      rw [List.length_take]
      exact min_eq_left (le_of_lt hilt)
    have hi0ge : 12 ≤ (p.drop 12 ++ lit1 ++ A).length := by
      have hl12 : lit1.length = 12 := by decide
      rw [List.length_append, List.length_append, hl12]
      omega
    have hlen6 : (((p ++ fallbackSentence A B).drop lit1.length).take i).length ≠ 6 := by
      omega
    have hsc : decide ((((p ++ fallbackSentence A B).drop lit1.length).take i) = "scalar".data) = false :=
      decide_eq_false (fun he => hlen6 (by rw [he]; decide))
    have hvec : decide ((((p ++ fallbackSentence A B).drop lit1.length).take i) = "vector".data) = false :=
      decide_eq_false (fun he => hlen6 (by rw [he]; decide))
    have hqual : qualifies (((p ++ fallbackSentence A B).drop lit1.length).take i) g2 = false := by
      unfold qualifies
      rw [hsc, hvec]
      simp
    rw [hqual]
    simp

/-- Witness for C10: a timestamp-prefixed fallback sentence (which
would qualify if anchored at column 0) leaves the initial state
unchanged. -/
theorem fallback_anchored_witness :
    applyFallback initState
      ("12:00 ".data ++ fallbackSentence "vector".data "xpu".data) = initState :=
  fallback_anchored initState "12:00 ".data "vector".data "xpu".data
    (by decide) (by decide) (by decide)
